import Mathlib

/-!
Shallow embedding of the pdfmunge repository (pdfmunge.py, pdfslice.py).

The two scripts are Python 2 programs.  Integers are modelled as Lean `Int`;
Python 2 division `/` on integers is floor division, so it is modelled with
`Int.fdiv`; Python `%` on a positive modulus agrees with Lean's `Int.emod`
(the `%` notation on `Int`).  Python strings are modelled as `List Char`
(with `String` at the API surface), and the library calls the scripts use
(`str.split`, `str.strip` inside `int()`, `str.find`) are modelled by the
structurally recursive functions below.  Fallible Python code (a `ValueError`
from `int()`, a failed tuple unpacking, a `KeyError` on a missing options
key, an `AttributeError` on `None`) is modelled with `Option`, `none`
standing for an uncaught exception.
-/

/-- Whitespace as stripped by Python's `int(str)` conversion (ASCII range). -/
def isPySpace (c : Char) : Bool :=
  c == ' ' || c == '\t' || c == '\n' || c == '\r' || c == '\x0b' || c == '\x0c'

/-- Strip leading and trailing whitespace, as Python's `int(str)` does. -/
def pyStrip (cs : List Char) : List Char :=
  ((cs.dropWhile isPySpace).reverse.dropWhile isPySpace).reverse

/-- Accumulate the value of a run of decimal digits; `none` on a non-digit. -/
def digitsValAux : List Char → Nat → Option Nat
  | [], acc => some acc
  | c :: cs, acc =>
      if c.isDigit then digitsValAux cs (acc * 10 + (c.toNat - 48)) else none

/-- Value of a nonempty all-digit string; `none` otherwise. -/
def digitsVal : List Char → Option Nat
  | [] => none
  | c :: cs => digitsValAux (c :: cs) 0

/-- Python's `int(str)`: optional surrounding whitespace, an optional single
sign, then one or more decimal digits; `none` models `ValueError`. -/
def pyInt (cs : List Char) : Option Int :=
  match pyStrip cs with
  | '+' :: rest => (digitsVal rest).map (fun n => (n : Int))
  | '-' :: rest => (digitsVal rest).map (fun n => -(n : Int))
  | rest => (digitsVal rest).map (fun n => (n : Int))

/-- Python's `str.split(sep)` for a one-character separator: splits at every
occurrence, keeping empty pieces (`"".split(",") == [""]`). -/
def splitOnChar (sep : Char) : List Char → List (List Char)
  | [] => [[]]
  | c :: cs =>
      let r := splitOnChar sep cs
      if c = sep then [] :: r
      else
        match r with
        | [] => [[c]]
        | h :: t => (c :: h) :: t

/-- Python's `range(a, b)` over integers: `[a, a+1, ..., b-1]`, empty when
`b ≤ a`. -/
def pyRange (a b : Int) : List Int :=
  (List.range (b - a).toNat).map (fun (k : Nat) => a + (k : Int))

/-- The body of the loop over comma-separated pieces in `parse_range`
(identical in pdfmunge.py lines 197-203 and pdfslice.py lines 281-287):
a piece containing a hyphen is split on the hyphen into exactly two parts,
both converted with `int()`, and contributes `range(start - 1, end)`;
any other piece is converted with `int()` and contributes the single
value `n - 1`. -/
def parse_token (tok : List Char) : Option (List Int) :=
  if tok.contains '-' then
    match splitOnChar '-' tok with
    | [s1, s2] =>
        match pyInt s1, pyInt s2 with
        | some a, some b => some (pyRange (a - 1) b)
        | _, _ => none
    | _ => none
  else
    match pyInt tok with
    | some n => some [n - 1]
    | none => none

/-- The `expanded_list` accumulation of `parse_range`: fold over the
comma-separated pieces, extending the accumulator with each piece's
contribution. -/
def parse_range_aux : List (List Char) → List Int → Option (List Int)
  | [], acc => some acc
  | tok :: rest, acc =>
      match parse_token tok with
      | some l => parse_range_aux rest (acc ++ l)
      | none => none

/-- `parse_range` (identical in pdfmunge.py and pdfslice.py): split the spec
on commas and expand every piece, 1-indexed inputs to 0-indexed outputs. -/
def parse_range (s : String) : Option (List Int) :=
  parse_range_aux (splitOnChar ',' s.data) []

/-- A PDF media box `[left, bottom, right, top]` (pyPdf
`RectangleObject`: `lowerLeft ++ upperRight`). -/
structure Rect where
  left : Int
  bottom : Int
  right : Int
  top : Int
deriving DecidableEq, Repr

/-- The options dictionary built by `handle_options` (both scripts), with
dictionary-key presence of `bounds` / `oddbounds` modelled by `Option`. -/
structure Options where
  rotate : Bool
  bounds : Option Rect
  oddbounds : Option Rect
  exclude : List Int
  intact : List Int
  margin : Int
deriving DecidableEq, Repr

/-- A page as the engine sees it: its media box and its accumulated
counter-clockwise rotation in degrees (`rotateCounterClockwise`). -/
structure Page where
  mediaBox : Rect
  rotation : Int
deriving DecidableEq, Repr

/-- The per-page decision of the engine, as reified from the per-page
branching of the two scripts' main loops. -/
inductive PageDisposition where
  | Excluded : PageDisposition
  | Intact : PageDisposition
  | Cropped : Rect → PageDisposition
  | SlicedRotated : Rect → Rect → PageDisposition
deriving DecidableEq, Repr

namespace Pdfslice

/-- pdfslice.py `calculate_bounds(pagenum, options, top=False)`,
lines 150-163.  On the rotate path the selected bounds list has its
index 1 (bottom) or index 3 (top) entry replaced; Python 2 `/` on
integers is floor division (`Int.fdiv`).  A missing `bounds` /
`oddbounds` dictionary key (`KeyError`) is `none`. -/
def calculate_bounds (pagenum : Int) (options : Options) (top : Bool) :
    Option Rect :=
  if options.rotate = true then
    match (if options.oddbounds.isSome ∧ pagenum % 2 = 0 then
             options.oddbounds else options.bounds) with
    | none => none
    | some bounds =>
        if top then
          some { bounds with
                 bottom := (bounds.top - bounds.bottom).fdiv 2
                             + bounds.bottom - options.margin }
        else
          some { bounds with
                 top := (bounds.top - bounds.bottom).fdiv 2
                          + bounds.bottom + options.margin }
  else if options.oddbounds.isSome ∧ pagenum % 2 = 0 then
    options.oddbounds
  else
    options.bounds

/-- The per-page classification performed by pdfslice.py `main`
(lines 78-98), with the action taken on the page reified as a
`PageDisposition`: an excluded page yields nothing, an intact page is
added unchanged, otherwise the page is sliced and rotated (rotate path)
or cropped (when `bounds` is configured) or added unchanged. -/
def plan (pagenum : Int) (options : Options) : Option PageDisposition :=
  if pagenum ∈ options.exclude then some .Excluded
  else if pagenum ∈ options.intact then some .Intact
  else if options.rotate = true then
    match calculate_bounds pagenum options true,
          calculate_bounds pagenum options false with
    | some b1, some b2 => some (.SlicedRotated b1 b2)
    | _, _ => none
  else if options.bounds.isSome then
    match calculate_bounds pagenum options false with
    | some r => some (.Cropped r)
    | none => none
  else some .Intact

/-- pdfslice.py `main`, lines 78-98, restricted to a single page: the list
of output pages appended for the page at `pagenum` whose current state is
`src` (the second reader's `input2.getPage(pagenum)` yields an identical
copy of the same page). -/
def slice_page (pagenum : Int) (src : Page) (options : Options) :
    Option (List Page) :=
  if pagenum ∈ options.exclude then some []
  else if pagenum ∈ options.intact then some [src]
  else if options.rotate = true then
    match calculate_bounds pagenum options true,
          calculate_bounds pagenum options false with
    | some b1, some b2 =>
        some [{ src with mediaBox := b1, rotation := src.rotation + 90 },
              { src with mediaBox := b2, rotation := src.rotation + 90 }]
    | _, _ => none
  else if options.bounds.isSome then
    match calculate_bounds pagenum options false with
    | some r => some [{ src with mediaBox := r }]
    | none => none
  else some [src]

end Pdfslice

namespace Pdfmunge

/-- pdfmunge.py `crop(page, page_num, options)`, lines 105-114: a `None`
page is left alone; otherwise the page's media box is replaced by
`oddbounds` when that key is present and `page_num % 2 == 0`, else by
`bounds`.  The outer `Option` is failure (a `KeyError` on a missing
key), the inner one is the (possibly absent) page after the call. -/
def crop (page : Option Page) (page_num : Int) (options : Options) :
    Option (Option Page) :=
  match page with
  | none => some none
  | some p =>
      match (if options.oddbounds.isSome ∧ page_num % 2 = 0 then
               options.oddbounds else options.bounds) with
      | none => none
      | some bounds => some (some { p with mediaBox := bounds })

/-- pdfmunge.py `rotate(page, page2, options)`, lines 117-128: read each
page's media box as `[left, bottom, right, top]`, move the first page's
bottom up to the midline minus the margin, the second page's top down to
the midline plus the margin (Python 2 floor division), and rotate both
pages 90 degrees counter-clockwise. -/
def rotate (page page2 : Page) (options : Options) : Page × Page :=
  let bounds := page.mediaBox
  let bounds2 := page2.mediaBox
  let bounds := { bounds with
                  bottom := (bounds.top - bounds.bottom).fdiv 2
                              + bounds.bottom - options.margin }
  let bounds2 := { bounds2 with
                   top := (bounds2.top - bounds2.bottom).fdiv 2
                            + bounds2.bottom + options.margin }
  ({ mediaBox := bounds, rotation := page.rotation + 90 },
   { mediaBox := bounds2, rotation := page2.rotation + 90 })

/-- pdfmunge.py `main`, lines 77-94, restricted to a single page: the
list of output pages appended for the page at `page_num` whose current
state is `src`.  Excluded pages are filtered out before the loop (line
78) and produce nothing; `page2` exists only when rotating (line 81) and
starts as an identical copy of the same source page; intact pages are
added unchanged; otherwise the page(s) are cropped when `bounds` is
configured, then sliced-and-rotated when rotating, and the surviving
page(s) are appended (`page`, then `page2` when it is not `None`). -/
def munge_page (page_num : Int) (src : Page) (options : Options) :
    Option (List Page) :=
  if page_num ∈ options.exclude then some []
  else
    let page2 : Option Page := if options.rotate then some src else none
    if page_num ∈ options.intact then some [src]
    else
      let step1 : Option (Page × Option Page) :=
        if options.bounds.isSome then
          match crop (some src) page_num options,
                crop page2 page_num options with
          | some (some p), some p2 => some (p, p2)
          | _, _ => none
        else some (src, page2)
      match step1 with
      | none => none
      | some (page, page2) =>
          let step2 : Option (Page × Option Page) :=
            if options.rotate then
              match page2 with
              | some p2 =>
                  let pr := rotate page p2 options
                  some (pr.1, some pr.2)
              | none => none
            else some (page, page2)
          match step2 with
          | none => none
          | some (page, page2) => some ([page] ++ page2.toList)

end Pdfmunge

example : Pdfslice.calculate_bounds 1
    ⟨false, some ⟨4, 4, 10, 10⟩, none, [], [], 0⟩ false =
    some ⟨4, 4, 10, 10⟩ := by decide
example : Pdfslice.calculate_bounds 1
    ⟨false, some ⟨4, 4, 10, 10⟩, some ⟨2, 2, 8, 8⟩, [], [], 0⟩ false =
    some ⟨4, 4, 10, 10⟩ := by decide
example : Pdfslice.calculate_bounds 2
    ⟨false, some ⟨4, 4, 10, 10⟩, some ⟨2, 2, 8, 8⟩, [], [], 0⟩ false =
    some ⟨2, 2, 8, 8⟩ := by decide
example : Pdfslice.calculate_bounds 1
    ⟨true, some ⟨4, 4, 10, 10⟩, none, [], [], 0⟩ true =
    some ⟨4, 7, 10, 10⟩ := by decide
example : Pdfslice.calculate_bounds 1
    ⟨true, some ⟨4, 4, 10, 10⟩, none, [], [], 2⟩ true =
    some ⟨4, 5, 10, 10⟩ := by decide
example : Pdfslice.calculate_bounds 1
    ⟨true, some ⟨4, 4, 10, 10⟩, none, [], [], 0⟩ false =
    some ⟨4, 4, 10, 7⟩ := by decide
example : Pdfslice.calculate_bounds 2
    ⟨true, some ⟨4, 4, 10, 10⟩, some ⟨2, 2, 8, 8⟩, [], [], 0⟩ true =
    some ⟨2, 5, 8, 8⟩ := by decide
example : Pdfslice.calculate_bounds 2
    ⟨true, some ⟨4, 4, 10, 10⟩, some ⟨2, 2, 8, 8⟩, [], [], 0⟩ false =
    some ⟨2, 2, 8, 5⟩ := by decide
example : Pdfslice.calculate_bounds 0
    ⟨true, none, none, [], [], 0⟩ true = none := by decide
example : Pdfmunge.munge_page 1 ⟨⟨0, 0, 10, 10⟩, 0⟩
    ⟨false, some ⟨4, 4, 10, 10⟩, none, [], [], 0⟩ =
    some [⟨⟨4, 4, 10, 10⟩, 0⟩] := by decide
example : Pdfmunge.munge_page 0 ⟨⟨0, 0, 10, 10⟩, 0⟩
    ⟨true, none, none, [], [], 0⟩ =
    some [⟨⟨0, 5, 10, 10⟩, 90⟩, ⟨⟨0, 0, 10, 5⟩, 90⟩] := by decide
example : Pdfmunge.munge_page 0 ⟨⟨0, 0, 10, 10⟩, 0⟩
    ⟨true, none, none, [0], [0], 0⟩ = some [] := by decide

example : parse_range "5" = some [4] := by decide
example : parse_range "1,2,3" = some [0, 1, 2] := by decide
example : parse_range "1-3" = some [0, 1, 2] := by decide
example : parse_range "1, 4-6, 14, 15, 30-31" =
    some [0, 3, 4, 5, 13, 14, 29, 30] := by decide
example : parse_range "5-3" = some [] := by decide
example : parse_range "+5" = some [4] := by decide
example : parse_range "-5" = none := by decide
example : parse_range "1,1" = some [0, 0] := by decide
example : parse_range "1-3,2-4" = some [0, 1, 2, 1, 2, 3] := by decide
example : parse_range "1,2,5-7,100-102" =
    some [0, 1, 4, 5, 6, 99, 100, 101] := by decide
example : parse_range "1,15-16" = some [0, 14, 15] := by decide
example : parse_range "1 - 3" = some [0, 1, 2] := by decide
example : parse_range "" = none := by decide
example : parse_range "1,,2" = none := by decide

/-- Membership in Python's `range(a, b)`: exactly the integers `x` with
`a ≤ x < b`. -/
theorem mem_pyRange (a b x : Int) : x ∈ pyRange a b ↔ a ≤ x ∧ x < b := by
  simp only [pyRange, List.mem_map, List.mem_range]
  constructor
  · rintro ⟨k, hk, rfl⟩
    rw [Int.lt_toNat] at hk
    have hk0 : (0 : Int) ≤ (k : Int) := Int.natCast_nonneg k
    omega
  · intro h
    have h0 : ((x - a).toNat : Int) = x - a :=
      Int.toNat_of_nonneg (by omega)
    refine ⟨(x - a).toNat, ?_, by omega⟩
    rw [Int.lt_toNat]
    omega

/-- The concatenation of the per-token contributions of a token list,
`none` as soon as one token fails. -/
def parse_tokens_concat : List (List Char) → Option (List Int)
  | [] => some []
  | tok :: rest =>
      match parse_token tok, parse_tokens_concat rest with
      | some l, some ls => some (l ++ ls)
      | _, _ => none

/-- The `extend`-accumulation of `parse_range` concatenates the per-token
contributions in order. -/
theorem parse_range_aux_eq (toks : List (List Char)) :
    ∀ acc, parse_range_aux toks acc =
      (parse_tokens_concat toks).map (fun ls => acc ++ ls) := by
  induction toks with
  | nil =>
      intro acc
      simp [parse_range_aux, parse_tokens_concat]
  | cons tok rest ih =>
      intro acc
      cases h : parse_token tok with
      | none => simp [parse_range_aux, parse_tokens_concat, h]
      | some l =>
          simp only [parse_range_aux, parse_tokens_concat, h]
          rw [ih (acc ++ l)]
          cases hm : parse_tokens_concat rest with
          | none => simp
          | some ls => simp [List.append_assoc]

/-- `parse_range` is the concatenation of the per-token contributions of
the comma-separated pieces of the spec. -/
theorem parse_range_eq_tokens (s : String) :
    parse_range s = parse_tokens_concat (splitOnChar ',' s.data) := by
  rw [parse_range, parse_range_aux_eq]
  cases parse_tokens_concat (splitOnChar ',' s.data) <;> simp

/-- Claim C1, corrected: on the rotate path with selected bounds
`(left, bottom, right, top)` and margin `m`, the engine computes
`midline = (top - bottom) / 2 + bottom` with Python 2 *floor* division
(not truncating division), and produces the top half
`(left, midline - m, right, top)` and the bottom half
`(left, bottom, right, midline + m)`; with bounds `[4,4,10,10]` and
`m = 0` the halves are `[4,7,10,10]` and `[4,4,10,7]`, and with `m = 2`
the top half is `[4,5,10,10]`.  Floor and truncating division agree
whenever `top ≥ bottom`. -/
theorem claim_c1_rotate_halves (i : Int) (opts : Options) (l b r t : Int)
    (hrot : opts.rotate = true)
    (hsel : (if opts.oddbounds.isSome ∧ i % 2 = 0 then opts.oddbounds
             else opts.bounds) = some ⟨l, b, r, t⟩) :
    Pdfslice.calculate_bounds i opts true =
        some ⟨l, (t - b).fdiv 2 + b - opts.margin, r, t⟩
    ∧ Pdfslice.calculate_bounds i opts false =
        some ⟨l, b, r, (t - b).fdiv 2 + b + opts.margin⟩
    ∧ (∀ rot : Int,
        Pdfmunge.rotate ⟨⟨l, b, r, t⟩, rot⟩ ⟨⟨l, b, r, t⟩, rot⟩ opts =
          (⟨⟨l, (t - b).fdiv 2 + b - opts.margin, r, t⟩, rot + 90⟩,
           ⟨⟨l, b, r, (t - b).fdiv 2 + b + opts.margin⟩, rot + 90⟩))
    ∧ Pdfslice.calculate_bounds 0
        ⟨true, some ⟨4, 4, 10, 10⟩, none, [], [], 0⟩ true =
        some ⟨4, 7, 10, 10⟩
    ∧ Pdfslice.calculate_bounds 0
        ⟨true, some ⟨4, 4, 10, 10⟩, none, [], [], 0⟩ false =
        some ⟨4, 4, 10, 7⟩
    ∧ Pdfslice.calculate_bounds 0
        ⟨true, some ⟨4, 4, 10, 10⟩, none, [], [], 2⟩ true =
        some ⟨4, 5, 10, 10⟩ := by
  refine ⟨?_, ?_, ?_, by decide, by decide, by decide⟩
  · simp only [Pdfslice.calculate_bounds, hrot, hsel, eq_self_iff_true,
      if_true, Bool.false_eq_true, if_false]
  · simp only [Pdfslice.calculate_bounds, hrot, hsel, eq_self_iff_true,
      if_true, Bool.false_eq_true, if_false]
  · intro rot
    rfl

/-- Claim C1 witness: the general halves statement applied to the
configuration with base bounds `[4,4,10,10]` and margin `2` at page 0. -/
theorem claim_c1_witness :
    Pdfslice.calculate_bounds 0
      ⟨true, some ⟨4, 4, 10, 10⟩, none, [], [], 2⟩ true =
        some ⟨4, 5, 10, 10⟩
    ∧ Pdfslice.calculate_bounds 0
      ⟨true, some ⟨4, 4, 10, 10⟩, none, [], [], 2⟩ false =
        some ⟨4, 4, 10, 9⟩ := by
  have h := claim_c1_rotate_halves 0
    ⟨true, some ⟨4, 4, 10, 10⟩, none, [], [], 2⟩ 4 4 10 10 rfl (by decide)
  exact ⟨h.1, h.2.1⟩

/-- Claim C1 counterexample to the claim as stated: the source uses
Python 2 floor division, not truncating division.  With degenerate
selected bounds `[0, 3, 10, 0]` (top < bottom) and margin 0, the code
yields the top half `[0, 1, 10, 0]` (floor: `(0-3)/2 = -2`), while the
claimed truncating arithmetic (`Int.tdiv`) would give bottom edge `2`. -/
theorem claim_c1_counterexample :
    Pdfslice.calculate_bounds 1
      ⟨true, some ⟨0, 3, 10, 0⟩, none, [], [], 0⟩ true =
        some ⟨0, 1, 10, 0⟩
    ∧ ((0 : Int) - 3).tdiv 2 + 3 - 0 = 2
    ∧ Pdfslice.calculate_bounds 1
        ⟨true, some ⟨0, 3, 10, 0⟩, none, [], [], 0⟩ true ≠
        some ⟨0, ((0 : Int) - 3).tdiv 2 + 3 - 0, 10, 0⟩ := by
  refine ⟨by decide, by decide, by decide⟩

/-- Claim C2, confirmed: for every page index `i` and every
configuration with `oddbounds` present, the bounds selected for
cropping and for slicing are `oddbounds` exactly when `i % 2 = 0`
(human page `i + 1` is odd) and `bounds` otherwise: pdfmunge's `crop`
(invoked on both the crop path and, before `rotate`, on the slicing
path) applies the selected rectangle regardless of the rotate flag,
pdfslice's non-rotate path crops to it, and pdfslice's rotate path
computes both half-rectangles from it.  When `oddbounds` is absent,
`bounds` is always selected, on both paths.  The spec's two concrete
dispositions hold. -/
theorem claim_c2_odd_even_selection (i : Int) (opts : Options)
    (ob bb : Rect) (p : Page)
    (hob : opts.oddbounds = some ob) (hbb : opts.bounds = some bb) :
    (i % 2 = 0 →
      Pdfmunge.crop (some p) i opts = some (some { p with mediaBox := ob })
      ∧ (opts.rotate = false →
          Pdfslice.calculate_bounds i opts false = some ob)
      ∧ (opts.rotate = true →
          Pdfslice.calculate_bounds i opts true =
            some { ob with bottom := (ob.top - ob.bottom).fdiv 2
                             + ob.bottom - opts.margin }
          ∧ Pdfslice.calculate_bounds i opts false =
            some { ob with top := (ob.top - ob.bottom).fdiv 2
                             + ob.bottom + opts.margin }))
    ∧ (¬ i % 2 = 0 →
      Pdfmunge.crop (some p) i opts = some (some { p with mediaBox := bb })
      ∧ (opts.rotate = false →
          Pdfslice.calculate_bounds i opts false = some bb)
      ∧ (opts.rotate = true →
          Pdfslice.calculate_bounds i opts true =
            some { bb with bottom := (bb.top - bb.bottom).fdiv 2
                             + bb.bottom - opts.margin }
          ∧ Pdfslice.calculate_bounds i opts false =
            some { bb with top := (bb.top - bb.bottom).fdiv 2
                             + bb.bottom + opts.margin }))
    ∧ (∀ (j : Int) (opts2 : Options), opts2.oddbounds = none →
        (opts2.rotate = false →
          Pdfslice.calculate_bounds j opts2 false = opts2.bounds)
        ∧ (∀ (bs : Rect) (q : Page), opts2.bounds = some bs →
            Pdfmunge.crop (some q) j opts2 =
              some (some { q with mediaBox := bs })
            ∧ (opts2.rotate = true →
                Pdfslice.calculate_bounds j opts2 true =
                  some { bs with bottom := (bs.top - bs.bottom).fdiv 2
                                   + bs.bottom - opts2.margin }
                ∧ Pdfslice.calculate_bounds j opts2 false =
                  some { bs with top := (bs.top - bs.bottom).fdiv 2
                                   + bs.bottom + opts2.margin })))
    ∧ Pdfslice.plan 0 ⟨false, some ⟨4, 4, 10, 10⟩, some ⟨2, 2, 8, 8⟩, [], [], 0⟩
        = some (.Cropped ⟨2, 2, 8, 8⟩)
    ∧ Pdfslice.plan 1 ⟨false, some ⟨4, 4, 10, 10⟩, some ⟨2, 2, 8, 8⟩, [], [], 0⟩
        = some (.Cropped ⟨4, 4, 10, 10⟩)
    ∧ Pdfslice.calculate_bounds 2
        ⟨true, some ⟨4, 4, 10, 10⟩, some ⟨2, 2, 8, 8⟩, [], [], 0⟩ true =
        some ⟨2, 5, 8, 8⟩
    ∧ Pdfslice.calculate_bounds 1
        ⟨true, some ⟨4, 4, 10, 10⟩, some ⟨2, 2, 8, 8⟩, [], [], 0⟩ false =
        some ⟨4, 4, 10, 7⟩ := by
  refine ⟨?_, ?_, ?_, by decide, by decide, by decide, by decide⟩
  · intro h
    refine ⟨by simp [Pdfmunge.crop, hob, h], ?_, ?_⟩
    · intro hrot
      simp [Pdfslice.calculate_bounds, hrot, hob, h]
    · intro hrot
      constructor
      · simp [Pdfslice.calculate_bounds, hrot, hob, h]
      · simp [Pdfslice.calculate_bounds, hrot, hob, h]
  · intro h
    refine ⟨by simp [Pdfmunge.crop, hob, hbb, h], ?_, ?_⟩
    · intro hrot
      simp [Pdfslice.calculate_bounds, hrot, hob, hbb, h]
    · intro hrot
      constructor
      · simp [Pdfslice.calculate_bounds, hrot, hob, hbb, h]
      · simp [Pdfslice.calculate_bounds, hrot, hob, hbb, h]
  · intro j opts2 h3
    refine ⟨?_, ?_⟩
    · intro hrot
      simp [Pdfslice.calculate_bounds, hrot, h3]
    · intro bs q hbs
      refine ⟨by simp [Pdfmunge.crop, h3, hbs], ?_⟩
      intro hrot
      constructor
      · simp [Pdfslice.calculate_bounds, hrot, h3, hbs]
      · simp [Pdfslice.calculate_bounds, hrot, h3, hbs]

/-- Claim C2 witness: the selection rule applied at page indices 0 and 1
with base bounds `[4,4,10,10]` and odd bounds `[2,2,8,8]`, on the crop
path and on the slicing path. -/
theorem claim_c2_witness :
    Pdfslice.calculate_bounds 0
      ⟨false, some ⟨4, 4, 10, 10⟩, some ⟨2, 2, 8, 8⟩, [], [], 0⟩ false =
      some ⟨2, 2, 8, 8⟩
    ∧ Pdfslice.calculate_bounds 1
      ⟨false, some ⟨4, 4, 10, 10⟩, some ⟨2, 2, 8, 8⟩, [], [], 0⟩ false =
      some ⟨4, 4, 10, 10⟩
    ∧ Pdfslice.calculate_bounds 0
      ⟨true, some ⟨4, 4, 10, 10⟩, some ⟨2, 2, 8, 8⟩, [], [], 0⟩ true =
      some ⟨2, 5, 8, 8⟩ := by
  refine ⟨?_, ?_, ?_⟩
  · exact (((claim_c2_odd_even_selection 0
      ⟨false, some ⟨4, 4, 10, 10⟩, some ⟨2, 2, 8, 8⟩, [], [], 0⟩
      ⟨2, 2, 8, 8⟩ ⟨4, 4, 10, 10⟩ ⟨⟨0, 0, 0, 0⟩, 0⟩
      rfl rfl).1 (by decide)).2.1 rfl)
  · exact (((claim_c2_odd_even_selection 1
      ⟨false, some ⟨4, 4, 10, 10⟩, some ⟨2, 2, 8, 8⟩, [], [], 0⟩
      ⟨2, 2, 8, 8⟩ ⟨4, 4, 10, 10⟩ ⟨⟨0, 0, 0, 0⟩, 0⟩
      rfl rfl).2.1 (by decide)).2.1 rfl)
  · exact ((((claim_c2_odd_even_selection 0
      ⟨true, some ⟨4, 4, 10, 10⟩, some ⟨2, 2, 8, 8⟩, [], [], 0⟩
      ⟨2, 2, 8, 8⟩ ⟨4, 4, 10, 10⟩ ⟨⟨0, 0, 0, 0⟩, 0⟩
      rfl rfl).1 (by decide)).2.2 rfl).1)

/-- Claim C3, confirmed: a page index present in both the exclude set
and the intact set is excluded — it produces no output page in either
script, and its disposition is `Excluded`; the exclusion test comes
before the intact test and before any cropping or rotation. -/
theorem claim_c3_exclusion_dominates (i : Int) (opts : Options) (src : Page)
    (hex : i ∈ opts.exclude) (_hin : i ∈ opts.intact) :
    Pdfslice.plan i opts = some .Excluded
    ∧ Pdfslice.slice_page i src opts = some []
    ∧ Pdfmunge.munge_page i src opts = some [] := by
  refine ⟨?_, ?_, ?_⟩
  · simp [Pdfslice.plan, hex]
  · simp [Pdfslice.slice_page, hex]
  · simp [Pdfmunge.munge_page, hex]

/-- Claim C3 witness: page 0 with `exclude = [0]` and `intact = [0]`,
under a rotating, cropping configuration, produces no output. -/
theorem claim_c3_witness :
    Pdfslice.plan 0 ⟨true, some ⟨4, 4, 10, 10⟩, none, [0], [0], 0⟩ =
      some .Excluded
    ∧ Pdfmunge.munge_page 0 ⟨⟨0, 0, 10, 10⟩, 0⟩
        ⟨true, some ⟨4, 4, 10, 10⟩, none, [0], [0], 0⟩ = some [] := by
  have h := claim_c3_exclusion_dominates 0
    ⟨true, some ⟨4, 4, 10, 10⟩, none, [0], [0], 0⟩
    ⟨⟨0, 0, 10, 10⟩, 0⟩ (by decide) (by decide)
  exact ⟨h.1, h.2.2⟩

/-- Claim C4, confirmed: the parse result is the concatenation of the
per-token contributions of the comma-separated tokens; a hyphenated
token whose two sides convert to integers `a` and `b` contributes
exactly the 0-indexed half-open interval `[a-1, b)`; a bare token
converting to `n` contributes the single index `n-1`; and the four
concrete example specs parse as the spec states. -/
theorem claim_c4_token_semantics :
    (∀ s : String,
        parse_range s = parse_tokens_concat (splitOnChar ',' s.data))
    ∧ (∀ (tok s1 s2 : List Char) (a b : Int),
        tok.contains '-' = true →
        splitOnChar '-' tok = [s1, s2] →
        pyInt s1 = some a → pyInt s2 = some b →
        parse_token tok = some (pyRange (a - 1) b)
        ∧ ∀ x : Int, x ∈ pyRange (a - 1) b ↔ a - 1 ≤ x ∧ x < b)
    ∧ (∀ (tok : List Char) (n : Int),
        tok.contains '-' = false → pyInt tok = some n →
        parse_token tok = some [n - 1])
    ∧ parse_range "5" = some [4]
    ∧ parse_range "1,2,3" = some [0, 1, 2]
    ∧ parse_range "1-3" = some [0, 1, 2]
    ∧ parse_range "1, 4-6, 14, 15, 30-31" =
        some [0, 3, 4, 5, 13, 14, 29, 30] := by
  refine ⟨parse_range_eq_tokens, ?_, ?_, by decide, by decide, by decide,
    by decide⟩
  · intro tok s1 s2 a b hc hs h1 h2
    refine ⟨?_, fun x => mem_pyRange (a - 1) b x⟩
    simp only [parse_token, hc, if_true, hs, h1, h2]
  · intro tok n hc hn
    simp only [parse_token, hc, Bool.false_eq_true, if_false, hn]

/-- Claim C4 witness: the hyphenated-token rule applied to the token
`4-6`, and the bare-token rule applied to `15`. -/
theorem claim_c4_witness :
    parse_token ("4-6".data) = some (pyRange 3 6)
    ∧ ((4 : Int) ∈ pyRange 3 6 ↔ (3 : Int) ≤ 4 ∧ (4 : Int) < 6)
    ∧ parse_token ("15".data) = some [14] := by
  have h := claim_c4_token_semantics.2.1 "4-6".data "4".data "6".data 4 6
    (by decide) (by decide) (by decide) (by decide)
  have h2 := claim_c4_token_semantics.2.2.1 "15".data 15
    (by decide) (by decide)
  exact ⟨h.1, h.2 4, h2⟩

/-- Claim C5 counterexample to the claim as stated: parsing the reversed
range spec `5-3` does not fail at all — it succeeds and returns the
empty contribution (Python's `range(4, 3)` is empty; there is no
`InvalidRangeSpec` anywhere in the source). -/
theorem claim_c5_counterexample : parse_range "5-3" = some [] := by decide

/-- Claim C5, corrected: a reversed hyphenated token is accepted
silently; when its first number is strictly greater than its second it
contributes no indices, and when the two numbers are equal it
contributes the single index `first - 1`; parsing never fails on a
reversed range. -/
theorem claim_c5_reversed_range (tok s1 s2 : List Char) (a b : Int)
    (hc : tok.contains '-' = true) (hs : splitOnChar '-' tok = [s1, s2])
    (h1 : pyInt s1 = some a) (h2 : pyInt s2 = some b) (_hrev : b ≤ a) :
    parse_token tok = some (pyRange (a - 1) b)
    ∧ (b < a → pyRange (a - 1) b = [])
    ∧ (b = a → pyRange (a - 1) b = [a - 1]) := by
  refine ⟨?_, ?_, ?_⟩
  · simp only [parse_token, hc, if_true, hs, h1, h2]
  · intro h
    have ht : (b - (a - 1)).toNat = 0 := by omega
    simp [pyRange, ht]
  · intro h
    subst h
    have ht : (b - (b - 1)).toNat = 1 := by omega
    have hr : List.range 1 = [0] := rfl
    simp [pyRange, ht, hr]

/-- Claim C5 witness: the reversed-range rule applied to the token
`5-3`, whose contribution is empty. -/
theorem claim_c5_witness :
    parse_token ("5-3".data) = some (pyRange 4 3) ∧ pyRange 4 3 = [] := by
  have h := claim_c5_reversed_range "5-3".data "5".data "3".data 5 3
    (by decide) (by decide) (by decide) (by decide) (by decide)
  exact ⟨h.1, h.2.1 (by decide)⟩

/-- Claim C6 counterexample to the claim as stated: in pdfslice, the
rotate path *does* require configured bounds.  With `rotate` set and no
`bounds`/`oddbounds` configured, `calculate_bounds` reads the missing
`bounds` key and fails (`KeyError`), so the per-page processing fails
instead of slicing from the page's own bounds. -/
theorem claim_c6_counterexample :
    Pdfslice.calculate_bounds 0 ⟨true, none, none, [], [], 0⟩ true = none
    ∧ Pdfslice.slice_page 0 ⟨⟨0, 0, 612, 792⟩, 0⟩
        ⟨true, none, none, [], [], 0⟩ = none := by
  refine ⟨by decide, by decide⟩

/-- Claim C6, corrected: in pdfmunge, a page on the rotate path with no
base/odd bounds configured is still sliced into two halves computed from
the page's own current media box (no crop is applied first) without
failing; in pdfslice the same configuration fails, because
`calculate_bounds` unconditionally reads the configured bounds. -/
theorem claim_c6_rotate_without_bounds (i : Int) (opts : Options) (src : Page)
    (hrot : opts.rotate = true) (hb : opts.bounds = none)
    (ho : opts.oddbounds = none)
    (hex : i ∉ opts.exclude) (hin : i ∉ opts.intact) :
    Pdfmunge.munge_page i src opts =
      some [⟨{ src.mediaBox with
               bottom := (src.mediaBox.top - src.mediaBox.bottom).fdiv 2
                           + src.mediaBox.bottom - opts.margin },
             src.rotation + 90⟩,
            ⟨{ src.mediaBox with
               top := (src.mediaBox.top - src.mediaBox.bottom).fdiv 2
                        + src.mediaBox.bottom + opts.margin },
             src.rotation + 90⟩]
    ∧ Pdfslice.calculate_bounds i opts true = none
    ∧ Pdfslice.slice_page i src opts = none := by
  have hcb : Pdfslice.calculate_bounds i opts true = none := by
    simp only [Pdfslice.calculate_bounds, hrot, hb, ho, eq_self_iff_true,
      if_true, Option.isSome_none, Bool.false_eq_true, false_and, if_false]
  refine ⟨?_, hcb, ?_⟩
  · simp only [Pdfmunge.munge_page, hex, hin, hrot, hb, if_false, if_true,
      Option.isSome_none, Bool.false_eq_true, Pdfmunge.rotate]
    rfl
  · simp only [Pdfslice.slice_page, hex, hin, hrot, hcb, eq_self_iff_true,
      if_true, if_false]

/-- Claim C6 witness: a letter-size page, rotate configured, no bounds:
pdfmunge slices it from its own media box, pdfslice fails. -/
theorem claim_c6_witness :
    Pdfmunge.munge_page 0 ⟨⟨0, 0, 612, 792⟩, 0⟩
      ⟨true, none, none, [], [], 2⟩ =
      some [⟨⟨0, 394, 612, 792⟩, 90⟩, ⟨⟨0, 0, 612, 398⟩, 90⟩]
    ∧ Pdfslice.slice_page 0 ⟨⟨0, 0, 612, 792⟩, 0⟩
        ⟨true, none, none, [], [], 2⟩ = none := by
  have h := claim_c6_rotate_without_bounds 0 ⟨true, none, none, [], [], 2⟩
    ⟨⟨0, 0, 612, 792⟩, 0⟩ rfl rfl rfl (by decide) (by decide)
  exact ⟨h.1, h.2.2⟩

/-- Claim C7, confirmed: a page in the intact set and not in the exclude
set is emitted exactly once with its input state unchanged — same media
box, no rotation — in both scripts, for any configuration (including
rotate and configured bounds). -/
theorem claim_c7_intact_unchanged (i : Int) (opts : Options) (src : Page)
    (hex : i ∉ opts.exclude) (hin : i ∈ opts.intact) :
    Pdfmunge.munge_page i src opts = some [src]
    ∧ Pdfslice.slice_page i src opts = some [src]
    ∧ Pdfslice.plan i opts = some .Intact := by
  refine ⟨?_, ?_, ?_⟩
  · simp [Pdfmunge.munge_page, hex, hin]
  · simp [Pdfslice.slice_page, hex, hin]
  · simp [Pdfslice.plan, hex, hin]

/-- Claim C7 witness: page 3 of the end-to-end example (`intact = [3]`,
`exclude = [1]`) with rotation and bounds configured is passed through
with its bounds and rotation untouched. -/
theorem claim_c7_witness :
    Pdfmunge.munge_page 3 ⟨⟨7, 8, 600, 700⟩, 0⟩
      ⟨true, some ⟨4, 4, 10, 10⟩, some ⟨2, 2, 8, 8⟩, [1], [3], 2⟩ =
      some [⟨⟨7, 8, 600, 700⟩, 0⟩]
    ∧ Pdfslice.slice_page 3 ⟨⟨7, 8, 600, 700⟩, 0⟩
        ⟨true, some ⟨4, 4, 10, 10⟩, some ⟨2, 2, 8, 8⟩, [1], [3], 2⟩ =
        some [⟨⟨7, 8, 600, 700⟩, 0⟩] := by
  have h := claim_c7_intact_unchanged 3
    ⟨true, some ⟨4, 4, 10, 10⟩, some ⟨2, 2, 8, 8⟩, [1], [3], 2⟩
    ⟨⟨7, 8, 600, 700⟩, 0⟩ (by decide) (by decide)
  exact ⟨h.1, h.2.1⟩

/-- Claim C8 counterexample to the claim as stated: the parse result is
a Python list, not a set — parsing `1,1` yields `[0, 0]`, which contains
the index 0 twice. -/
theorem claim_c8_counterexample :
    parse_range "1,1" = some [0, 0]
    ∧ ¬ ([(0 : Int), 0]).Nodup := by
  refine ⟨by decide, by decide⟩

/-- Claim C8, corrected: the parse result is a list in which duplicate
tokens and overlapping ranges are kept, so it can contain an index more
than once; only the underlying set of members collapses duplicates
(and the host uses the list solely for membership tests). -/
theorem claim_c8_duplicates_kept :
    parse_range "1,1" = some [0, 0]
    ∧ parse_range "1-3,2-4" = some [0, 1, 2, 1, 2, 3]
    ∧ ([(0 : Int), 0]).toFinset = {0}
    ∧ ([(0 : Int), 1, 2, 1, 2, 3]).toFinset = {0, 1, 2, 3} := by
  refine ⟨by decide, by decide, by decide, by decide⟩

/-- Claim C9 counterexample to the claim as stated: an explicitly
plus-signed token is *not* rejected — Python's `int()` accepts an
explicit sign, so parsing `+5` succeeds with index 4. -/
theorem claim_c9_counterexample : parse_range "+5" = some [4] := by decide

/-- Claim C9, corrected: plus-signed numeric tokens are accepted and
converted (`+5` yields index 4, `+2-+4` yields indices 1..3), while a
minus-signed bare token such as `-5` fails — not because signs are
rejected, but because the minus sign is taken for a range hyphen and the
empty left part fails integer conversion. -/
theorem claim_c9_signed_tokens :
    parse_range "+5" = some [4]
    ∧ parse_range "+2-+4" = some [1, 2, 3]
    ∧ parse_range "-5" = none := by
  refine ⟨by decide, by decide, by decide⟩

/-- Claim C10, confirmed: in pdfmunge with `rotate` off and bounds
configured, the second page is absent (`None`) and `crop` applied to it
is a no-op that returns it untouched, so the non-rotate cropping path
never dereferences the absent second page: per-page processing always
succeeds (and the absent page contributes no output). -/
theorem claim_c10_crop_none (i : Int) (opts : Options) (src : Page)
    (bb : Rect) (hrot : opts.rotate = false) (hb : opts.bounds = some bb) :
    Pdfmunge.crop none i opts = some none
    ∧ ∃ out : List Page, Pdfmunge.munge_page i src opts = some out := by
  refine ⟨rfl, ?_⟩
  by_cases hex : i ∈ opts.exclude
  · exact ⟨[], by simp [Pdfmunge.munge_page, hex]⟩
  by_cases hin : i ∈ opts.intact
  · exact ⟨[src], by simp [Pdfmunge.munge_page, hex, hin]⟩
  cases hsel : (if opts.oddbounds.isSome ∧ i % 2 = 0 then opts.oddbounds
                else opts.bounds) with
  | none =>
      exfalso
      by_cases hc : opts.oddbounds.isSome ∧ i % 2 = 0
      · rw [if_pos hc] at hsel
        rw [Option.isSome_iff_exists] at hc
        obtain ⟨⟨x, hx⟩, -⟩ := hc
        rw [hx] at hsel
        exact Option.noConfusion hsel
      · rw [if_neg hc, hb] at hsel
        exact Option.noConfusion hsel
  | some sel =>
      refine ⟨[{ src with mediaBox := sel }], ?_⟩
      rw [hb] at hsel
      simp only [Pdfmunge.munge_page, hex, hin, hrot, hb, if_false,
        Bool.false_eq_true, Option.isSome_some, if_true,
        Pdfmunge.crop, hsel, Option.toList]
      rfl

/-- Claim C10 witness: page 0, base bounds `[4,4,10,10]`, rotate off:
cropping the absent second page is a no-op and processing succeeds. -/
theorem claim_c10_witness :
    Pdfmunge.crop none 0 ⟨false, some ⟨4, 4, 10, 10⟩, none, [], [], 0⟩ =
      some none
    ∧ ∃ out : List Page,
        Pdfmunge.munge_page 0 ⟨⟨0, 0, 612, 792⟩, 0⟩
          ⟨false, some ⟨4, 4, 10, 10⟩, none, [], [], 0⟩ = some out := by
  exact claim_c10_crop_none 0 ⟨false, some ⟨4, 4, 10, 10⟩, none, [], [], 0⟩
    ⟨⟨0, 0, 612, 792⟩, 0⟩ ⟨4, 4, 10, 10⟩ rfl rfl
